import Mathlib

/-!
Verification of the Mudae roll-session orchestration engine.

The definitions below are a shallow embedding of the Python sources:
`models.py`, `settings.py`, `discord_client.py`, `mudae_service.py` and the
session-launcher part of `ui.py`.  Pure data classes become structures,
timestamps become integers, and every bounded-time polling loop becomes a
recursion over the explicit list of fetch results the transport would have
produced before the deadline (one list entry per poll iteration).  The
transport itself is an oracle: for the executor, the k-th reply-poll outcome
is given by a function of k, where an `Except.error` models an exception
raised by the HTTP client while polling, `Except.ok none` models a timeout
and `Except.ok (some m)` a detected card.  Wall-clock quantities (sleep
delays, perf counters, the `duration_seconds` field of a summary and the
`created_at` field of a log entry) are not modelled.
-/

/-! ## Data model (models.py) -/

/-- Log levels of `models.LogLevel`. -/
inductive LogLevel where
  | info
  | success
  | warning
  | error
deriving DecidableEq, Repr

/-- Subset of Discord embed fields, from `models.DiscordEmbed`. -/
structure DiscordEmbed where
  title : Option String
  description : Option String
  url : Option String
deriving DecidableEq, Repr

/-- Message author, from `models.DiscordAuthor`. -/
structure DiscordAuthor where
  id : String
  username : Option String
  global_name : Option String
deriving DecidableEq, Repr

/-- Emoji metadata, from `models.DiscordEmoji`. -/
structure DiscordEmoji where
  id : Option String
  name : Option String
  animated : Option Bool
deriving DecidableEq, Repr

/-- Message component tree, from `models.DiscordComponent`.  The
`components` field makes the type recursive (action rows hold children), so
it is an inductive type with named projections below. -/
inductive DiscordComponent where
  | mk (type : Nat) (custom_id : Option String) (emoji : Option DiscordEmoji)
       (label : Option String) (style : Option Nat)
       (components : List DiscordComponent)

/-- Projection for the `type` field of a component. -/
def DiscordComponent.type : DiscordComponent → Nat
  | .mk t _ _ _ _ _ => t

/-- Projection for the `emoji` field of a component. -/
def DiscordComponent.emoji : DiscordComponent → Option DiscordEmoji
  | .mk _ _ e _ _ _ => e

/-- Projection for the `components` (children) field of a component. -/
def DiscordComponent.components : DiscordComponent → List DiscordComponent
  | .mk _ _ _ _ _ cs => cs

/-- Channel message, from `models.DiscordMessage`.  The `timestamp` is an
integer stand-in for the `datetime` field: only its ordering matters. -/
structure DiscordMessage where
  id : String
  content : String
  author : DiscordAuthor
  timestamp : Int
  embeds : List DiscordEmbed
  components : List DiscordComponent
  flags : Option Int

/-- Reaction strategy, from `models.KakeraReactionMode`. -/
inductive KakeraReactionMode where
  | p_only
  | preferred
deriving DecidableEq, Repr

/-- Session configuration, from `models.RollPlan`.  The `ge=0` bounds on the
two counters are expressed by using `Nat`. -/
structure RollPlan where
  us_uses : Nat
  roll_count : Nat
  use_slash_commands : Bool
  kakera_reaction_mode : KakeraReactionMode
deriving DecidableEq, Repr

/-- Aggregate session result, from `models.RollSummary`.  The wall-clock
`duration_seconds` field is not modelled. -/
structure RollSummary where
  plan : RollPlan
  total_messages_sent : Nat
  cards_detected : Nat
  last_card_title : Option String
deriving DecidableEq, Repr

/-- Runtime log entry, from `models.LogEntry` (the wall-clock `created_at`
field is not modelled). -/
structure LogEntry where
  level : LogLevel
  message : String
deriving DecidableEq, Repr

/-! ## Settings (settings.py)

Only the fields the engine reads are carried along; `RuntimeTuning` holds
nothing but timing parameters (poll intervals, delays, history limits),
which the embedding abstracts into explicit fetch-result lists, so it is
omitted. -/

/-- Discord configuration, from `settings.DiscordSettings`. -/
structure DiscordSettings where
  token : String
  channel_id : String
  guild_id : String
  mudae_user_id : String
  command_prefix : String
  slash_roll_command : String
deriving DecidableEq, Repr

/-- Kakera configuration, from `settings.KakeraSettings`. -/
structure KakeraSettings where
  preferred_types : List String
deriving DecidableEq, Repr

/-- Aggregated configuration, from `settings.AppSettings`. -/
structure AppSettings where
  discord : DiscordSettings
  kakera : KakeraSettings
deriving DecidableEq, Repr

/-- Default kakera emoji names, from `settings.DEFAULT_KAKERA_TYPES`. -/
def DEFAULT_KAKERA_TYPES : List String :=
  ["kakeraP", "kakeraO", "kakeraR", "kakeraW", "kakeraL"]

/-- The `KAKERA_PREFERRED_TYPES` parsing line of `settings.load_settings`:
split the environment value on commas, strip whitespace, and keep only the
parts whose stripped form is non-empty. -/
def parse_preferred_kakera (env : String) : List String :=
  ((env.splitOn ",").map (fun part => part.trim)).filter fun part =>
    decide (part ≠ "")

/-- The `preferred_kakera or default_kakera_types` fallback of
`settings.load_settings`: an empty parse result is replaced by the
defaults. -/
def load_preferred_kakera (env : String) : List String :=
  let preferred := parse_preferred_kakera env
  if preferred.isEmpty then DEFAULT_KAKERA_TYPES else preferred

/-! ## String helpers

Python `sub in s` is substring containment; the embedding checks the
character lists. -/

/-- Python `s.lower()`, character by character (the phrases involved are
ASCII, where this agrees with Python case folding). -/
def str_lower (s : String) : String :=
  ⟨s.data.map Char.toLower⟩

/-- Occurrence search behind the substring test: does `sub` occur as a
contiguous run at some position of `l`? -/
def substr_search (sub : List Char) : List Char → Bool
  | [] => sub.isEmpty
  | c :: rest => sub.isPrefixOf (c :: rest) || substr_search sub rest

/-- Python substring test `sub in s`. -/
def str_contains (s sub : String) : Bool :=
  substr_search sub.data s.data

/-! ## Feedback classifier (MudaeService._await_kakera_feedback and the two
phrase predicates) -/

/-- Energy-depletion phrase list of `MudaeService._is_energy_depleted_message`. -/
def energy_phrases : List String :=
  ["out of energy", "don\x27t have enough energy", "no energy left"]

/-- `MudaeService._is_energy_depleted_message`: lowercase the content and
look for any energy-depletion phrase. -/
def is_energy_depleted_message (content : String) : Bool :=
  let lowered := str_lower content
  energy_phrases.any fun phrase => str_contains lowered phrase

/-- `MudaeService._is_successful_reaction_message`: lowercase the content
and require both a "react" token and a "success" token. -/
def is_successful_reaction_message (content : String) : Bool :=
  let lowered := str_lower content
  str_contains lowered "react" && str_contains lowered "success"

/-- The inner `for message in messages` loop of
`MudaeService._await_kakera_feedback`, applied to one fetched batch:
skip messages not authored by the bot, skip messages at or before the
`since` timestamp, then return `some true` on an energy-depletion phrase
and `some false` on a success phrase; `none` means the batch decided
nothing. -/
def scan_feedback_batch (mudae_user_id : String) (since : Int) :
    List DiscordMessage → Option Bool
  | [] => none
  | message :: rest =>
    if message.author.id ≠ mudae_user_id then
      scan_feedback_batch mudae_user_id since rest
    else if message.timestamp ≤ since then
      scan_feedback_batch mudae_user_id since rest
    else
      let content := str_lower message.content
      if is_energy_depleted_message content then some true
      else if is_successful_reaction_message content then some false
      else scan_feedback_batch mudae_user_id since rest

/-- `MudaeService._await_kakera_feedback`: the deadline-bounded poll loop,
with one list entry per `fetch_recent_messages` call made before the
deadline.  Returns `true` exactly when an energy-depletion message decided
the loop; a success message and an elapsed deadline both return
`false`, exactly as the three `return` sites of the source do. -/
def await_kakera_feedback (mudae_user_id : String) (since : Int) :
    List (List DiscordMessage) → Bool
  | [] => false
  | batch :: rest =>
    match scan_feedback_batch mudae_user_id since batch with
    | some b => b
    | none => await_kakera_feedback mudae_user_id since rest

/-- The outcome taxonomy named by the specification for the feedback
classifier. -/
inductive SessionOutcome where
  | energyDepleted
  | reactionConfirmed
  | inconclusive
deriving DecidableEq, Repr

/-- The decision structure of `MudaeService._await_kakera_feedback` with its
three `return` sites kept distinct: `return True` on an energy phrase
becomes `energyDepleted`, `return False` on a success phrase becomes
`reactionConfirmed`, and the `return False` after the deadline becomes
`inconclusive`. -/
def classify_feedback (mudae_user_id : String) (since : Int) :
    List (List DiscordMessage) → SessionOutcome
  | [] => SessionOutcome.inconclusive
  | batch :: rest =>
    match scan_feedback_batch mudae_user_id since batch with
    | some true => SessionOutcome.energyDepleted
    | some false => SessionOutcome.reactionConfirmed
    | none => classify_feedback mudae_user_id since rest

/-! ## Reply poller (DiscordHTTPClient.poll_for_mudae_embeds and
MudaeService._await_card) -/

/-- The filter of `DiscordHTTPClient.poll_for_mudae_embeds`: keep a message
when it is authored by the bot, has at least one embed, and (when a `since`
watermark is present) has a timestamp strictly after the watermark. -/
def poll_keep (mudae_user_id : String) (since : Option Int)
    (message : DiscordMessage) : Bool :=
  message.author.id == mudae_user_id && !message.embeds.isEmpty &&
    (match since with
     | none => true
     | some t => decide (t < message.timestamp))

/-- `DiscordHTTPClient.poll_for_mudae_embeds`, with the fetched message list
passed in explicitly (the `limit` parameter only sizes that fetch). -/
def poll_for_mudae_embeds (mudae_user_id : String) (since : Option Int)
    (messages : List DiscordMessage) : List DiscordMessage :=
  messages.filter (poll_keep mudae_user_id since)

/-- Python `max(messages, key=lambda m: m.timestamp)`: the first message of
maximal timestamp (later elements replace the accumulator only when
strictly greater). -/
def latest_message : List DiscordMessage → Option DiscordMessage
  | [] => none
  | m :: rest =>
    some (rest.foldl
      (fun acc x => if acc.timestamp < x.timestamp then x else acc) m)

/-- `MudaeService._await_card`: the deadline-bounded poll loop, one list
entry per `poll_for_mudae_embeds` call made before the deadline.  The first
argument threads `MudaeService._last_seen_card` (the watermark); the result
pairs the watermark after the call with the returned card, mirroring the
assignment `self._last_seen_card = latest.timestamp` on success. -/
def await_card (mudae_user_id : String) :
    Option Int → List (List DiscordMessage) → Option Int × Option DiscordMessage
  | w, [] => (w, none)
  | w, fetch :: rest =>
    match latest_message (poll_for_mudae_embeds mudae_user_id w fetch) with
    | some latest => (some latest.timestamp, some latest)
    | none => await_card mudae_user_id w rest

/-- A sequence of `_await_card` calls within one executor run, threading the
watermark from each call into the next. -/
def run_polls (mudae_user_id : String) :
    Option Int → List (List (List DiscordMessage)) → Option Int
  | w, [] => w
  | w, call :: rest => run_polls mudae_user_id (await_card mudae_user_id w call).1 rest

/-! ## Button selector (MudaeService._iter_button_components and
MudaeService._select_kakera_component) -/

/-- `MudaeService._iter_button_components`: depth-first flattening of the
component tree.  A type-1 container with a non-empty child list is
descended into, a type-2 leaf is collected, everything else is skipped
(the non-empty test mirrors Python truthiness of the child tuple). -/
def iter_button_components : List DiscordComponent → List DiscordComponent
  | [] => []
  | DiscordComponent.mk t cid em lb sty children :: rest =>
    (if t == 1 && !children.isEmpty then iter_button_components children
     else if t == 2 then [DiscordComponent.mk t cid em lb sty children]
     else [])
    ++ iter_button_components rest

/-- The match test of the inner loop of
`MudaeService._select_kakera_component`: the button has an emoji and its
(optional) name equals the target.  Python `emoji and emoji.name == target`
is false when the emoji is absent and compares the optional name against
the string otherwise. -/
def button_matches (target : String) (button : DiscordComponent) : Bool :=
  match button.emoji with
  | some e => e.name == some target
  | none => false

/-- The nested `for target in targets: for button in buttons:` loops of
`MudaeService._select_kakera_component`. -/
def first_match : List String → List DiscordComponent → Option DiscordComponent
  | [], _ => none
  | target :: rest, buttons =>
    match buttons.find? (button_matches target) with
    | some b => some b
    | none => first_match rest buttons

/-- `MudaeService._select_kakera_component`: flatten the tree, return
`none` when no buttons exist, otherwise run the preference-major search. -/
def select_kakera_component (components : List DiscordComponent)
    (targets : List String) : Option DiscordComponent :=
  let buttons := iter_button_components components
  if buttons.isEmpty then none
  else first_match targets buttons

/-! ## Reaction-target resolution (MudaeService._resolve_kakera_targets) -/

/-- The dedup loop of `MudaeService._resolve_kakera_targets`: walk the
configured names, skipping falsy (empty) names and names already seen.  The
`seen` set is modelled as the list of names added so far. -/
def resolve_ordered (seen : List String) : List String → List String
  | [] => []
  | name :: rest =>
    if name ≠ "" ∧ name ∉ seen then name :: resolve_ordered (name :: seen) rest
    else resolve_ordered seen rest

/-- `MudaeService._resolve_kakera_targets`. -/
def resolve_kakera_targets (preferred_types : List String)
    (mode : KakeraReactionMode) : List String :=
  match mode with
  | KakeraReactionMode.p_only => ["kakeraP"]
  | KakeraReactionMode.preferred => resolve_ordered [] preferred_types

/-- Specification-side description of the dedup: keep the first occurrence
of every element, in order. -/
def firstOccurrences : List String → List String
  | [] => []
  | x :: xs => x :: firstOccurrences (xs.filter fun y => decide (y ≠ x))
  termination_by l => l.length
  decreasing_by
    simp only [List.length_cons]
    exact Nat.lt_succ_of_le (List.length_filter_le _ _)

/-! ## Session executor (MudaeService.execute_roll_plan)

The transport is abstracted into an oracle indexed by the position of the
`perform_roll` call within the session: `card k` is the outcome of the k-th
reply poll (`Except.error` = exception raised while polling, `Except.ok
none` = timeout, `Except.ok (some m)` = card found), `clickOk k` says
whether `click_component` succeeds for that roll, and `feedbackDepleted k`
is the boolean `_await_kakera_feedback` would return for it.  The executor
additionally records a trace of its observable actions so that counting
claims can be stated; `rollCmd`, `boostCmd` and `closingCmd` events are
exactly the outbound messages (each matching a `total_messages += 1` in the
source). -/

/-- `mudae_service.MAX_US_BATCH_SIZE`. -/
def MAX_US_BATCH_SIZE : Nat := 20

/-- Transport oracle for one executor run. -/
structure RollOracle where
  card : Nat → Except String (Option DiscordMessage)
  clickOk : Nat → Bool
  feedbackDepleted : Nat → Bool

/-- An oracle whose reply polls never raise: the k-th poll yields `card k`
(timeout or card), clicks succeed according to `click`, and the feedback
classifier returns `fb`. -/
def mkOkOracle (card : Nat → Option DiscordMessage) (click fb : Nat → Bool) :
    RollOracle :=
  { card := fun k => Except.ok (card k), clickOk := click, feedbackDepleted := fb }

/-- An oracle never raises when every reply poll returns `Except.ok`. -/
def oracle_ok (o : RollOracle) : Prop :=
  ∀ k, ∃ v, o.card k = Except.ok v

/-- Observable actions of one executor run. -/
inductive TraceEvent where
  | rollCmd (slash : Bool) (text : String)
  | boostCmd (text : String) (batch : Nat)
  | closingCmd (text : String)
  | selectBtn (found : Bool)
  | clickBtn (ok : Bool)
  | feedback (depleted : Bool)
deriving DecidableEq, Repr

/-- The mutable locals of `execute_roll_plan` (`total_messages`,
`cards_detected`, `last_card_title`, `kakera_energy_depleted`) plus the
index of the next `perform_roll` call, used to address the oracle. -/
structure ExecState where
  total_messages : Nat
  cards_detected : Nat
  last_card_title : Option String
  kakera_energy_depleted : Bool
  idx : Nat
deriving Repr

/-- Context shared by all rolls of one session: the command text
configuration, the invocation mode of the plan, the resolved kakera targets and
the transport oracle. -/
structure RollCtx where
  command_prefix : String
  use_slash_commands : Bool
  targets : List String
  oracle : RollOracle

/-- `MudaeService._handle_kakera_reactions` for the roll at oracle index
`k`: select a button; without one return `False`; on a click exception
return `False`; otherwise return the feedback classification. -/
def handle_kakera_reactions (ctx : RollCtx) (card : DiscordMessage)
    (k : Nat) : Bool × List TraceEvent :=
  match select_kakera_component card.components ctx.targets with
  | none => (false, [TraceEvent.selectBtn false])
  | some _ =>
    if ctx.oracle.clickOk k then
      let depleted := ctx.oracle.feedbackDepleted k
      (depleted,
        [TraceEvent.selectBtn true, TraceEvent.clickBtn true,
         TraceEvent.feedback depleted])
    else
      (false, [TraceEvent.selectBtn true, TraceEvent.clickBtn false])

/-- The `next((embed.title for embed in card.embeds if embed.title), ...)`
expression: first truthy (present and non-empty) embed title. -/
def first_truthy_title (embeds : List DiscordEmbed) : Option String :=
  embeds.findSome? fun e =>
    match e.title with
    | some t => if t ≠ "" then some t else none
    | none => none

/-- The `perform_roll` closure of `execute_roll_plan`: send the roll
command (slash interaction or text command), count the message, await a
card and, when one arrives while slash commands and kakera targets are in
use and the energy budget is not yet known to be exhausted, run the
reaction sub-flow, assigning its result to the energy flag.  A transport
error while awaiting the card propagates (`Except.error`), as the source
has no handler around the poll. -/
def perform_roll (ctx : RollCtx) (s : ExecState) :
    Except String ExecState × List TraceEvent :=
  let roll_text_command := ctx.command_prefix ++ "wa"
  let send_event := TraceEvent.rollCmd ctx.use_slash_commands roll_text_command
  let s1 : ExecState := { s with total_messages := s.total_messages + 1 }
  match ctx.oracle.card s.idx with
  | Except.error e => (Except.error e, [send_event])
  | Except.ok none => (Except.ok { s1 with idx := s.idx + 1 }, [send_event])
  | Except.ok (some card) =>
    let s2 : ExecState := { s1 with
      cards_detected := s1.cards_detected + 1,
      last_card_title :=
        match first_truthy_title card.embeds with
        | some t => some t
        | none => s1.last_card_title }
    if ctx.use_slash_commands && !ctx.targets.isEmpty
        && !s2.kakera_energy_depleted then
      let hk := handle_kakera_reactions ctx card s.idx
      (Except.ok { s2 with kakera_energy_depleted := hk.1, idx := s.idx + 1 },
       send_event :: hk.2)
    else
      (Except.ok { s2 with idx := s.idx + 1 }, [send_event])

/-- The `for _ in range(...)` roll loop: `n` consecutive `perform_roll`
calls, stopping at the first propagated transport error. -/
def run_rolls (ctx : RollCtx) : Nat → ExecState →
    Except String ExecState × List TraceEvent
  | 0, s => (Except.ok s, [])
  | n + 1, s =>
    match perform_roll ctx s with
    | (Except.error e, tr) => (Except.error e, tr)
    | (Except.ok s1, tr) =>
      let rest := run_rolls ctx n s1
      (rest.1, tr ++ rest.2)

/-- The `while us_remaining > 0` boost loop: send one `us` command sized
`min(MAX_US_BATCH_SIZE, remaining)`, count it, run that many rolls, and
continue with the reduced remainder. -/
def run_boosts (ctx : RollCtx) : Nat → ExecState →
    Except String ExecState × List TraceEvent
  | 0, s => (Except.ok s, [])
  | r + 1, s =>
    let batch_size := min MAX_US_BATCH_SIZE (r + 1)
    let boost_command := ctx.command_prefix ++ "us " ++ toString batch_size
    let s1 : ExecState := { s with total_messages := s.total_messages + 1 }
    match run_rolls ctx batch_size s1 with
    | (Except.error e, tr) =>
      (Except.error e, TraceEvent.boostCmd boost_command batch_size :: tr)
    | (Except.ok s2, tr) =>
      let rest := run_boosts ctx (r + 1 - batch_size) s2
      (rest.1, TraceEvent.boostCmd boost_command batch_size :: (tr ++ rest.2))
  termination_by r _ => r
  decreasing_by simp only [MAX_US_BATCH_SIZE]; omega

/-- The successive values taken by `batch_size` in the boost loop, starting
from `r` remaining boosts: each batch is `min(MAX_US_BATCH_SIZE, remaining)`. -/
def boostBatches : Nat → List Nat
  | 0 => []
  | r + 1 =>
    min MAX_US_BATCH_SIZE (r + 1)
      :: boostBatches (r + 1 - min MAX_US_BATCH_SIZE (r + 1))
  termination_by r => r
  decreasing_by simp only [MAX_US_BATCH_SIZE]; omega

/-- Initial executor state: all counters zero, no title, energy flag
clear. -/
def init_exec_state : ExecState :=
  { total_messages := 0, cards_detected := 0, last_card_title := none,
    kakera_energy_depleted := false, idx := 0 }

/-- The closing message literal of `execute_roll_plan`. -/
def closing_text : String :=
  "Finished rolling by Mudae - https://github.com/lmqzzz/mudae"

/-- The roll text command (`command_prefix + "wa"`) for a configuration. -/
def roll_text_of (settings : AppSettings) : String :=
  settings.discord.command_prefix ++ "wa"

/-- `MudaeService.execute_roll_plan`: resolve the kakera targets, run the
plain rolls, run the boost batches, send the closing message and build the
summary.  A transport error propagates with the trace accumulated so
far and no summary is produced. -/
def execute_roll_plan (settings : AppSettings) (oracle : RollOracle)
    (plan : RollPlan) : Except String RollSummary × List TraceEvent :=
  let target_kakera :=
    resolve_kakera_targets settings.kakera.preferred_types
      plan.kakera_reaction_mode
  let ctx : RollCtx :=
    { command_prefix := settings.discord.command_prefix,
      use_slash_commands := plan.use_slash_commands,
      targets := target_kakera,
      oracle := oracle }
  match run_rolls ctx plan.roll_count init_exec_state with
  | (Except.error e, tr) => (Except.error e, tr)
  | (Except.ok s1, tr1) =>
    match run_boosts ctx plan.us_uses s1 with
    | (Except.error e, tr2) => (Except.error e, tr1 ++ tr2)
    | (Except.ok s2, tr2) =>
      let s3 : ExecState := { s2 with total_messages := s2.total_messages + 1 }
      (Except.ok
        { plan := plan,
          total_messages_sent := s3.total_messages,
          cards_detected := s3.cards_detected,
          last_card_title := s3.last_card_title },
       tr1 ++ tr2 ++ [TraceEvent.closingCmd closing_text])

/-! ## Trace observations -/

/-- Events that correspond to one outbound message. -/
def is_send_event : TraceEvent → Bool
  | TraceEvent.rollCmd _ _ => true
  | TraceEvent.boostCmd _ _ => true
  | TraceEvent.closingCmd _ => true
  | _ => false

/-- Number of outbound messages recorded in a trace. -/
def count_sent (tr : List TraceEvent) : Nat :=
  (tr.filter is_send_event).length

/-- Events that correspond to one roll command. -/
def is_roll_event : TraceEvent → Bool
  | TraceEvent.rollCmd _ _ => true
  | _ => false

/-- Number of roll commands recorded in a trace. -/
def count_rolls (tr : List TraceEvent) : Nat :=
  (tr.filter is_roll_event).length

/-- The batch sizes of the boost commands recorded in a trace, in order. -/
def boost_args (tr : List TraceEvent) : List Nat :=
  tr.filterMap fun e =>
    match e with
    | TraceEvent.boostCmd _ b => some b
    | _ => none

/-- A trace with no reaction sub-flow activity: no button selection, no
click attempt, no feedback classification. -/
def reaction_free (tr : List TraceEvent) : Bool :=
  tr.all fun e =>
    match e with
    | TraceEvent.selectBtn _ => false
    | TraceEvent.clickBtn _ => false
    | TraceEvent.feedback _ => false
    | _ => true

/-! ## Session launcher (ui.CursesApplication._trigger_roll and
ui.CursesApplication._run_session)

The curses rendering and keyboard handling are out of scope; only the
state-mutation protocol of launching a session is modelled.  The background
thread is sequentialized: `trigger_roll` is the launch decision of the
foreground thread, and `run_session` is the worker body applied when it
eventually completes.  The shared state is guarded by `self._state_lock`,
a plain non-reentrant `threading.Lock`; because `_log` itself acquires
that lock, the model tracks whether the calling thread already holds it
when `_log` runs — acquiring a held non-reentrant lock blocks forever.
The `sync_state` call of the worker only refreshes the service watermark
and touches no UI state. -/

/-- `ui.AppState` (the editing-focus bookkeeping fields are carried but
untouched by the launcher). -/
structure AppState where
  plan : RollPlan
  logs : List LogEntry
  is_busy : Bool
  last_summary : Option RollSummary
  focus_index : Nat
  editing_field : Option String
  editing_buffer : Option String

/-- `ui.CursesApplication._log`: append an entry and drop the oldest once
the 200-entry capacity is exceeded. -/
def push_log (logs : List LogEntry) (level : LogLevel) (message : String) :
    List LogEntry :=
  let logs1 := logs ++ [{ level := level, message := message }]
  if logs1.length > 200 then logs1.drop 1 else logs1

/-- Outcome of launcher code that interacts with the non-reentrant state
lock: either the code completes with a value, or it blocks forever trying
to re-acquire a lock the calling thread already holds. -/
inductive LockResult (α : Type) where
  | completed (value : α)
  | deadlocked

/-- `ui.CursesApplication._log` with its locking behavior: build the entry,
then acquire the state lock and append via the ring discipline of
`push_log`.  The lock is a plain non-reentrant `threading.Lock`, so a
`_log` call from a thread that already holds the lock (`held = true`)
blocks forever instead of logging. -/
def log_entry (held : Bool) (logs : List LogEntry) (level : LogLevel)
    (message : String) : LockResult (List LogEntry) :=
  if held then LockResult.deadlocked
  else LockResult.completed (push_log logs level message)

/-- `ui.CursesApplication._trigger_roll`.  The busy test, the reject-path
`_log` call and the busy-flag assignment all run inside
`with self._state_lock:`, so that `_log` call re-acquires a lock the
thread already holds; the launch-message `_log` of the accept path runs
after the `with` block has released the lock.  The boolean of a completed
result is the "accepted" outcome of the launcher contract. -/
def trigger_roll (st : AppState) : LockResult (AppState × Bool) :=
  if st.is_busy then
    match log_entry true st.logs LogLevel.warning
        "A session is already running." with
    | LockResult.deadlocked => LockResult.deadlocked
    | LockResult.completed logs1 =>
      LockResult.completed ({ st with logs := logs1 }, false)
  else
    let plan := st.plan
    let st1 : AppState := { st with is_busy := true }
    let mode := if plan.use_slash_commands then "slash" else "text"
    match log_entry false st1.logs LogLevel.success
        ("Launching session: " ++ toString plan.roll_count
          ++ " rolls before $us, then " ++ toString plan.us_uses
          ++ " boosted rolls via " ++ mode ++ " commands.") with
    | LockResult.deadlocked => LockResult.deadlocked
    | LockResult.completed logs1 =>
      LockResult.completed ({ st1 with logs := logs1 }, true)

/-- `ui.CursesApplication._run_session`: run the executor on the captured
plan; on success store the summary and log the completion message, on a
raised error log the failure; in both cases (the `finally` block) clear the
busy flag.  Every `_log` call of the worker runs while the state lock is
not held, so the ring update applies directly. -/
def run_session (settings : AppSettings) (oracle : RollOracle)
    (plan : RollPlan) (st : AppState) : AppState :=
  match (execute_roll_plan settings oracle plan).1 with
  | Except.ok summary =>
    let total_rolls := summary.plan.roll_count + summary.plan.us_uses
    let message :=
      "Completed " ++ toString total_rolls ++ " rolls ("
        ++ toString summary.plan.roll_count ++ " remaining + "
        ++ toString summary.plan.us_uses ++ " boosted), "
        ++ toString summary.cards_detected ++ " cards detected."
    { st with
        last_summary := some summary,
        logs := push_log st.logs LogLevel.success message,
        is_busy := false }
  | Except.error exc =>
    { st with
        logs := push_log st.logs LogLevel.error ("Session failed: " ++ exc),
        is_busy := false }

/-! ## Theorems -/

/-- Helper: the dedup loop of `_resolve_kakera_targets` computes the
first-occurrence dedup of the names not yet seen, provided no name is
empty. -/
theorem resolve_ordered_eq_firstOccurrences (prefs : List String) :
    ∀ seen : List String, (∀ x ∈ prefs, x ≠ "") →
      resolve_ordered seen prefs
        = firstOccurrences (prefs.filter fun y => decide (y ∉ seen)) := by
  induction prefs with
  | nil => intro seen _; simp [resolve_ordered, firstOccurrences]
  | cons name rest ih =>
    intro seen h
    have hname : name ≠ "" := h name (List.mem_cons_self _ _)
    have hrest : ∀ x ∈ rest, x ≠ "" := fun x hx => h x (List.mem_cons_of_mem _ hx)
    by_cases hs : name ∈ seen
    · have hp : (decide (name ∉ seen)) = false := by simp [hs]
      simp only [resolve_ordered, List.filter_cons, hp, if_false]
      rw [if_neg (by tauto)]
      exact ih seen hrest
    · have hp : (decide (name ∉ seen)) = true := by simp [hs]
      simp only [resolve_ordered, List.filter_cons, hp, if_true]
      rw [if_pos ⟨hname, hs⟩]
      rw [firstOccurrences]
      rw [ih (name :: seen) hrest]
      congr 1
      rw [List.filter_filter]
      have heqf : (List.filter (fun y => decide (y ∉ name :: seen)) rest)
          = (List.filter (fun a => decide (a ≠ name) && decide (a ∉ seen)) rest) := by
        apply List.filter_congr
        intro x _
        by_cases hx1 : x = name <;> by_cases hx2 : x ∈ seen <;>
          simp [hx1, hx2, List.mem_cons]
      rw [heqf]

/-- C7: reaction-target resolution.  In `P_ONLY` mode the result is the
fixed singleton `kakeraP`; in `PREFERRED` mode the result is the configured
preference sequence with duplicates removed and first-occurrence order
preserved, for every sequence without empty names; and the configuration
loader can only produce sequences without empty names. -/
theorem resolve_kakera_targets_spec :
    (∀ prefs, resolve_kakera_targets prefs KakeraReactionMode.p_only
      = ["kakeraP"]) ∧
    (∀ prefs, "" ∉ prefs →
      resolve_kakera_targets prefs KakeraReactionMode.preferred
        = firstOccurrences prefs) ∧
    (∀ env, "" ∉ load_preferred_kakera env) := by
  refine ⟨fun _ => rfl, ?_, ?_⟩
  · intro prefs h
    have h' : ∀ x ∈ prefs, x ≠ "" := by
      intro x hx heq
      exact h (heq ▸ hx)
    have heq := resolve_ordered_eq_firstOccurrences prefs [] h'
    have hfilter : (prefs.filter fun y => decide (y ∉ ([] : List String)))
        = prefs := by
      rw [List.filter_congr (q := fun _ => true) ?_, List.filter_true]
      intro x _
      simp
    rw [resolve_kakera_targets, heq, hfilter]
  · intro env hmem
    rw [load_preferred_kakera] at hmem
    by_cases hempty : (parse_preferred_kakera env).isEmpty
    · simp only [hempty, if_true] at hmem
      simp [DEFAULT_KAKERA_TYPES] at hmem
    · simp only [hempty, if_false] at hmem
      rw [parse_preferred_kakera] at hmem
      have := List.of_mem_filter hmem
      simp at this

/-- Witness for C7: a concrete preference list with a duplicate. -/
theorem resolve_kakera_targets_spec_witness :
    resolve_kakera_targets ["kakeraP", "kakeraO", "kakeraP"]
        KakeraReactionMode.preferred
      = firstOccurrences ["kakeraP", "kakeraO", "kakeraP"] :=
  resolve_kakera_targets_spec.2.1 ["kakeraP", "kakeraO", "kakeraP"] (by decide)

/-- Helper: the boolean the feedback poller returns is `true` exactly when
the outcome-labelled decision is `energyDepleted`. -/
theorem await_eq_decide_classify (mid : String) (since : Int) :
    ∀ batches, await_kakera_feedback mid since batches
      = decide (classify_feedback mid since batches
          = SessionOutcome.energyDepleted) := by
  intro batches
  induction batches with
  | nil => simp [await_kakera_feedback, classify_feedback]
  | cons batch rest ih =>
    simp only [await_kakera_feedback, classify_feedback]
    split
    next b h =>
      simp only [h]
      cases b <;> simp
    next h =>
      simp only [h]
      simpa using ih

/-- Helper: when no fetched batch decides anything before the deadline, the
decision is `inconclusive`. -/
theorem classify_no_match (mid : String) (since : Int) :
    ∀ batches, (∀ b ∈ batches, scan_feedback_batch mid since b = none) →
      classify_feedback mid since batches = SessionOutcome.inconclusive := by
  intro batches
  induction batches with
  | nil => intro _; rfl
  | cons b rest ih =>
    intro h
    have hb := h b (List.mem_cons_self _ _)
    simp only [classify_feedback, hb]
    exact ih fun x hx => h x (List.mem_cons_of_mem _ hx)

/-- A bot-authored message that satisfies the success phrase set. -/
def success_feedback_message : DiscordMessage :=
  { id := "1", content := "Reaction success!",
    author := { id := "mudae-bot", username := none, global_name := none },
    timestamp := 5, embeds := [], components := [], flags := none }

/-- C5 counterexample: the classifier does not return three distinguishable
outcomes.  On a poll that finds a success message (the `ReactionConfirmed`
decision path) it returns the very same value as on a poll whose deadline
elapses with no matching message (the `Inconclusive` path): both are
`false`.  Only the energy-depletion outcome is distinguishable to the
caller. -/
theorem feedback_outcomes_not_distinct_cex :
    classify_feedback "mudae-bot" 0 [[success_feedback_message]]
      = SessionOutcome.reactionConfirmed ∧
    classify_feedback "mudae-bot" 0 [] = SessionOutcome.inconclusive ∧
    await_kakera_feedback "mudae-bot" 0 [[success_feedback_message]]
      = await_kakera_feedback "mudae-bot" 0 [] :=
  ⟨rfl, rfl, rfl⟩

/-- C5 (amended): the decision structure of the feedback poller does
distinguish three paths — the first polled bot message matching a phrase
set decides, and an elapsed deadline with no match takes the
`Inconclusive` path — but the function returns a boolean that collapses
`ReactionConfirmed` and `Inconclusive` to the same value: it returns `true`
exactly for `EnergyDepleted`, and `false` for both of the other
outcomes. -/
theorem await_kakera_feedback_collapses_outcomes (mid : String) (since : Int)
    (batches : List (List DiscordMessage)) :
    await_kakera_feedback mid since batches
      = decide (classify_feedback mid since batches
          = SessionOutcome.energyDepleted) ∧
    ((∀ b ∈ batches, scan_feedback_batch mid since b = none) →
      classify_feedback mid since batches = SessionOutcome.inconclusive ∧
      await_kakera_feedback mid since batches = false) := by
  refine ⟨await_eq_decide_classify mid since batches, ?_⟩
  intro h
  have hc := classify_no_match mid since batches h
  refine ⟨hc, ?_⟩
  rw [await_eq_decide_classify mid since batches, hc]
  simp

/-- Witness for C5 (amended): a deadline that elapses with no matching
message yields the inconclusive decision and the `false` return value. -/
theorem await_kakera_feedback_collapses_outcomes_witness :
    classify_feedback "mudae-bot" 0 [] = SessionOutcome.inconclusive ∧
    await_kakera_feedback "mudae-bot" 0 [] = false :=
  (await_kakera_feedback_collapses_outcomes "mudae-bot" 0 []).2
    (fun b hb => absurd hb (List.not_mem_nil b))

/-- C9: within one message, the energy-depletion check runs before the
success check, so a bot message matching both phrase sets decides
`EnergyDepleted` (the scan returns `some true` and the poller returns
`true`), at the head of the first batch. -/
theorem energy_depletion_precedence (mid : String) (since : Int)
    (m : DiscordMessage) (rest : List DiscordMessage)
    (batches : List (List DiscordMessage))
    (hid : m.author.id = mid) (hts : since < m.timestamp)
    (hE : is_energy_depleted_message (str_lower m.content) = true)
    (hS : is_successful_reaction_message (str_lower m.content) = true) :
    scan_feedback_batch mid since (m :: rest) = some true ∧
    await_kakera_feedback mid since ((m :: rest) :: batches) = true := by
  have hscan : scan_feedback_batch mid since (m :: rest) = some true := by
    rw [scan_feedback_batch]
    rw [if_neg (by simp [hid])]
    rw [if_neg (by omega)]
    simp [hE]
  refine ⟨hscan, ?_⟩
  rw [await_kakera_feedback, hscan]

/-- A bot-authored message matching both the energy-depletion and the
success phrase sets. -/
def both_phrases_message : DiscordMessage :=
  { id := "2", content := "Out of energy, but your react was a success",
    author := { id := "mudae-bot", username := none, global_name := none },
    timestamp := 7, embeds := [], components := [], flags := none }

/-- Witness for C9: a concrete message matching both phrase sets is
classified as energy depletion. -/
theorem energy_depletion_precedence_witness :
    scan_feedback_batch "mudae-bot" 0 [both_phrases_message] = some true ∧
    await_kakera_feedback "mudae-bot" 0 [[both_phrases_message]] = true :=
  energy_depletion_precedence "mudae-bot" 0 both_phrases_message [] []
    rfl (by decide) (by decide) (by decide)

/-- Helper: `_log` always leaves the pushed entry as the newest log entry,
also when the ring drops its oldest entry. -/
theorem push_log_last (logs : List LogEntry) (level : LogLevel)
    (message : String) :
    (push_log logs level message).getLast?
      = some (LogEntry.mk level message) := by
  rw [push_log]
  by_cases h : (logs ++ [LogEntry.mk level message]).length > 200
  · rw [if_pos h]
    cases logs with
    | nil => simp at h
    | cons a rest =>
      simp only [List.cons_append, List.drop_succ_cons, List.drop_zero]
      exact List.getLast?_concat _
  · rw [if_neg h]
    exact List.getLast?_concat _

/-- Helper: the worker always clears the busy flag, with or without a
summary (the `finally` block; its `_log` calls run outside the lock). -/
theorem run_session_clears_busy (settings : AppSettings)
    (oracle : RollOracle) (plan : RollPlan) (st : AppState) :
    (run_session settings oracle plan st).is_busy = false := by
  rw [run_session]
  cases (execute_roll_plan settings oracle plan).1 <;> rfl

/-- Helper: a launch from an idle state completes — the accept path logs
only after the `with` block has released the state lock — and is
accepted with the busy flag set. -/
theorem trigger_roll_idle_accepts (st : AppState) (h : st.is_busy = false) :
    ∃ st1, trigger_roll st = LockResult.completed (st1, true) ∧
      st1.is_busy = true := by
  rw [trigger_roll, if_neg (by rw [h]; exact Bool.false_ne_true)]
  simp only [log_entry, Bool.false_eq_true, if_false]
  exact ⟨_, rfl, rfl⟩

/-- A concrete application state with an active session. -/
def busy_app_state : AppState :=
  { plan := { us_uses := 0, roll_count := 3, use_slash_commands := false,
              kakera_reaction_mode := KakeraReactionMode.preferred },
    logs := [], is_busy := true, last_summary := none,
    focus_index := 1, editing_field := none, editing_buffer := none }

/-- C8: the code contradicts the claimed launcher protocol.  Launching
while a session is active does not produce the claimed
reject-with-warning: the reject branch of `_trigger_roll` calls `_log`
while still inside `with self._state_lock:`, and `_log` re-acquires that
same non-reentrant lock, so the foreground thread deadlocks — no warning
is appended, the call never returns false, and no subsequent launch can
ever be accepted.  Evaluated at a concrete busy state. -/
theorem launcher_busy_reject_deadlocks :
    busy_app_state.is_busy = true ∧
    trigger_roll busy_app_state = LockResult.deadlocked :=
  ⟨rfl, rfl⟩

/-- Helper: the running maximum of the `max(..., key=timestamp)` fold is
either the start value or a list element. -/
theorem foldl_latest_mem (l : List DiscordMessage) : ∀ a : DiscordMessage,
    l.foldl (fun acc x => if acc.timestamp < x.timestamp then x else acc) a = a ∨
    l.foldl (fun acc x => if acc.timestamp < x.timestamp then x else acc) a ∈ l := by
  induction l with
  | nil => intro a; left; rfl
  | cons x xs ih =>
    intro a
    simp only [List.foldl_cons]
    rcases ih (if a.timestamp < x.timestamp then x else a) with h | h
    · rw [h]
      by_cases hc : a.timestamp < x.timestamp
      · right; simp [hc]
      · left; simp [hc]
    · right; exact List.mem_cons_of_mem _ h

/-- Helper: `max(messages, key=timestamp)` returns a member of the list. -/
theorem latest_message_mem (l : List DiscordMessage) (m : DiscordMessage)
    (h : latest_message l = some m) : m ∈ l := by
  cases l with
  | nil => simp [latest_message] at h
  | cons x xs =>
    rw [latest_message] at h
    have hm := Option.some_injective _ h
    rcases foldl_latest_mem xs x with h2 | h2
    · rw [hm] at h2; rw [h2]; exact List.mem_cons_self _ _
    · rw [hm] at h2; exact List.mem_cons_of_mem _ h2

/-- Helper: a successful `_await_card` call with watermark `some t` sets the
watermark to the returned timestamp, which lies strictly after `t`. -/
theorem await_card_success (mid : String) (t : Int) :
    ∀ (fetches : List (List DiscordMessage)) (w : Option Int)
      (m : DiscordMessage),
      await_card mid (some t) fetches = (w, some m) →
      w = some m.timestamp ∧ t < m.timestamp := by
  intro fetches
  induction fetches with
  | nil => intro w m h; simp [await_card] at h
  | cons fetch rest ih =>
    intro w m h
    rw [await_card] at h
    cases hl : latest_message (poll_for_mudae_embeds mid (some t) fetch) with
    | none =>
      simp only [hl] at h
      exact ih w m h
    | some latest =>
      simp only [hl] at h
      have h1 : some latest.timestamp = w := congrArg Prod.fst h
      have h2 : some latest = some m := congrArg Prod.snd h
      have hlm : latest = m := Option.some_injective _ h2
      subst hlm
      refine ⟨h1.symm, ?_⟩
      have hmem := latest_message_mem _ _ hl
      have hkeep := List.of_mem_filter hmem
      rw [poll_keep] at hkeep
      have := (Bool.and_eq_true _ _).mp hkeep
      exact of_decide_eq_true this.2

/-- Helper: a timed-out `_await_card` call leaves the watermark
untouched. -/
theorem await_card_timeout (mid : String) :
    ∀ (fetches : List (List DiscordMessage)) (w : Option Int),
      (await_card mid w fetches).2 = none →
      (await_card mid w fetches).1 = w := by
  intro fetches
  induction fetches with
  | nil => intro w _; rfl
  | cons fetch rest ih =>
    intro w h
    rw [await_card] at h ⊢
    cases hl : latest_message (poll_for_mudae_embeds mid w fetch) with
    | none =>
      simp only [hl] at h ⊢
      exact ih w h
    | some latest =>
      simp only [hl] at h
      exact absurd h (Option.some_ne_none latest)

/-- Helper: across any sequence of `_await_card` calls, a watermark that
starts at `some t` only moves forward. -/
theorem run_polls_mono (mid : String) :
    ∀ (calls : List (List (List DiscordMessage)))
      (t : Int),
      ∃ t2, run_polls mid (some t) calls = some t2 ∧ t ≤ t2 := by
  intro calls
  induction calls with
  | nil => intro t; exact ⟨t, rfl, le_refl t⟩
  | cons call rest ih =>
    intro t
    rw [run_polls]
    cases hr : (await_card mid (some t) call).2 with
    | none =>
      rw [await_card_timeout mid call (some t) hr]
      exact ih t
    | some m =>
      have hpair : await_card mid (some t) call
          = ((await_card mid (some t) call).1, some m) := by
        rw [← hr]
      have hsucc := await_card_success mid t call _ m hpair
      rw [hsucc.1]
      obtain ⟨t2, ht2, hle⟩ := ih m.timestamp
      exact ⟨t2, ht2, le_trans (le_of_lt hsucc.2) hle⟩

/-- C3: the watermark is monotonically non-decreasing across the poll calls
of one executor run.  A `_await_card` call that returns a card assigns the
watermark the timestamp of that card, which is strictly greater than the
previous watermark value (messages at or before the watermark are filtered
out and never returned); a call that times out leaves the watermark
unchanged; hence over any sequence of calls the watermark never
regresses. -/
theorem watermark_monotone :
    (∀ (mid : String) (t : Int) (fetches : List (List DiscordMessage))
        (w : Option Int) (m : DiscordMessage),
      await_card mid (some t) fetches = (w, some m) →
      w = some m.timestamp ∧ t < m.timestamp) ∧
    (∀ (mid : String) (fetches : List (List DiscordMessage)) (w : Option Int),
      (await_card mid w fetches).2 = none →
      (await_card mid w fetches).1 = w) ∧
    (∀ (mid : String) (calls : List (List (List DiscordMessage))) (t : Int),
      ∃ t2, run_polls mid (some t) calls = some t2 ∧ t ≤ t2) :=
  ⟨fun mid t fetches w m h => await_card_success mid t fetches w m h,
   fun mid fetches w h => await_card_timeout mid fetches w h,
   fun mid calls t => run_polls_mono mid calls t⟩

/-- A bot card reply used by the poller witnesses. -/
def card_message : DiscordMessage :=
  { id := "9", content := "",
    author := { id := "mudae-bot", username := none, global_name := none },
    timestamp := 10,
    embeds := [{ title := some "Waifu", description := none, url := none }],
    components := [], flags := none }

/-- Witness for C3: one successful poll on a concrete fetch advances the
watermark from 3 to the card timestamp 10, strictly forward. -/
theorem watermark_monotone_witness :
    some (10 : Int) = some card_message.timestamp ∧ (3 : Int) < card_message.timestamp :=
  watermark_monotone.1 "mudae-bot" 3 [[card_message]] (some 10) card_message rfl

/-- Unfolding lemma: flattening the empty forest. -/
theorem iter_button_components_nil : iter_button_components [] = [] := by
  rw [iter_button_components.eq_def]

/-- Unfolding lemma: flattening a non-empty forest. -/
theorem iter_button_components_cons (t : Nat) (cid : Option String)
    (em : Option DiscordEmoji) (lb : Option String) (sty : Option Nat)
    (children rest : List DiscordComponent) :
    iter_button_components (DiscordComponent.mk t cid em lb sty children :: rest)
      = (if t == 1 && !children.isEmpty then iter_button_components children
         else if t == 2 then [DiscordComponent.mk t cid em lb sty children]
         else [])
        ++ iter_button_components rest := by
  rw [iter_button_components.eq_def]

/-- Helper: a preference that matches no button is skipped without
affecting the result (no false negative from earlier preferences). -/
theorem select_skip (comps : List DiscordComponent) (t : String)
    (ts : List String)
    (h : ∀ b ∈ iter_button_components comps, button_matches t b = false) :
    select_kakera_component comps (t :: ts)
      = select_kakera_component comps ts := by
  rw [select_kakera_component, select_kakera_component]
  by_cases he : (iter_button_components comps).isEmpty
  · rw [if_pos he, if_pos he]
  · rw [if_neg he, if_neg he]
    rw [first_match]
    have hf : (iter_button_components comps).find? (button_matches t) = none :=
      List.find?_eq_none.mpr fun x hx => by
        rw [h x hx]
        exact Bool.false_ne_true
    rw [hf]

/-- Helper: the head preference wins with the first matching button in
traversal order (that is what `find?` over the flattened list returns). -/
theorem select_hit (comps : List DiscordComponent) (t : String)
    (ts : List String) (b : DiscordComponent)
    (h : (iter_button_components comps).find? (button_matches t) = some b) :
    select_kakera_component comps (t :: ts) = some b := by
  rw [select_kakera_component]
  have hmem := List.mem_of_find?_eq_some h
  have hne : (iter_button_components comps).isEmpty = false := by
    cases hi : iter_button_components comps with
    | nil => rw [hi] at hmem; cases hmem
    | cons c cs => rfl
  rw [if_neg (by simp [hne])]
  rw [first_match, h]

/-- Helper: the concrete two-preference scenario of the claim, where the
only button of the tree carries the second preference name. -/
theorem select_singleton (comps : List DiscordComponent) (x y : String)
    (b : DiscordComponent)
    (h1 : iter_button_components comps = [b])
    (h2 : button_matches x b = false) (h3 : button_matches y b = true) :
    select_kakera_component comps [x, y] = some b := by
  rw [select_skip comps x [y] ?_]
  · refine select_hit comps y [] b ?_
    rw [h1]
    simp [List.find?, h3]
  · intro c hc
    rw [h1] at hc
    simp only [List.mem_singleton] at hc
    rw [hc]
    exact h2

/-- C4: the button selector is a preference-major, position-minor search
over the depth-first flattening of the component tree.  A preference that
matches no button is skipped with no effect on the result; the earliest
preference with a match returns the first matching button in traversal
order; in particular, for preferences `[X, Y]` over a tree whose only
button is named `Y`, that button is returned.  Determinism over repeated
calls is inherent: the selector is a pure function of its arguments. -/
theorem select_kakera_preference_major :
    (∀ (comps : List DiscordComponent) (t : String) (ts : List String),
      (∀ b ∈ iter_button_components comps, button_matches t b = false) →
      select_kakera_component comps (t :: ts)
        = select_kakera_component comps ts) ∧
    (∀ (comps : List DiscordComponent) (t : String) (ts : List String)
        (b : DiscordComponent),
      (iter_button_components comps).find? (button_matches t) = some b →
      select_kakera_component comps (t :: ts) = some b) ∧
    (∀ (comps : List DiscordComponent) (x y : String) (b : DiscordComponent),
      iter_button_components comps = [b] →
      button_matches x b = false → button_matches y b = true →
      select_kakera_component comps [x, y] = some b) :=
  ⟨select_skip, select_hit, select_singleton⟩

/-- A concrete kakera button named `kakeraY`. -/
def sample_button : DiscordComponent :=
  DiscordComponent.mk 2 (some "btn-1")
    (some { id := some "11", name := some "kakeraY", animated := none })
    none (some 1) []

/-- A concrete component tree: one action row holding one button. -/
def sample_tree : List DiscordComponent :=
  [DiscordComponent.mk 1 none none none none [sample_button]]

/-- Witness for C4: with preferences `[kakeraX, kakeraY]` and a tree whose
only button is named `kakeraY`, the selector returns that button. -/
theorem select_kakera_preference_major_witness :
    select_kakera_component sample_tree ["kakeraX", "kakeraY"]
      = some sample_button :=
  select_kakera_preference_major.2.2 sample_tree "kakeraX" "kakeraY"
    sample_button
    (by simp [sample_tree, sample_button, iter_button_components_cons,
              iter_button_components_nil])
    rfl rfl

/-- Helper: outbound-message count distributes over trace concatenation. -/
theorem count_sent_append (a b : List TraceEvent) :
    count_sent (a ++ b) = count_sent a + count_sent b := by
  rw [count_sent, count_sent, count_sent, List.filter_append, List.length_append]

/-- Helper: roll-command count distributes over trace concatenation. -/
theorem count_rolls_append (a b : List TraceEvent) :
    count_rolls (a ++ b) = count_rolls a + count_rolls b := by
  rw [count_rolls, count_rolls, count_rolls, List.filter_append,
    List.length_append]

/-- Helper: boost-argument extraction distributes over trace
concatenation. -/
theorem boost_args_append (a b : List TraceEvent) :
    boost_args (a ++ b) = boost_args a ++ boost_args b := by
  rw [boost_args, boost_args, boost_args, List.filterMap_append]

/-- Helper: reaction-freedom distributes over trace concatenation. -/
theorem reaction_free_append (a b : List TraceEvent) :
    reaction_free (a ++ b) = (reaction_free a && reaction_free b) := by
  rw [reaction_free, reaction_free, reaction_free, List.all_append]

/-- Helper: the reaction sub-flow sends no messages, rolls nothing and
issues no boost command. -/
theorem handle_no_send (ctx : RollCtx) (card : DiscordMessage) (k : Nat) :
    count_sent (handle_kakera_reactions ctx card k).2 = 0 ∧
    count_rolls (handle_kakera_reactions ctx card k).2 = 0 ∧
    boost_args (handle_kakera_reactions ctx card k).2 = [] := by
  rw [handle_kakera_reactions]
  cases select_kakera_component card.components ctx.targets with
  | none => exact ⟨rfl, rfl, rfl⟩
  | some c =>
    by_cases hc : ctx.oracle.clickOk k
    · simp only [hc, if_true]
      exact ⟨rfl, rfl, rfl⟩
    · simp only [hc, if_false]
      exact ⟨rfl, rfl, rfl⟩

/-- Helper: when the reaction sub-flow reports energy depletion, its trace
contains the depleted feedback classification. -/
theorem handle_depleted_feedback (ctx : RollCtx) (card : DiscordMessage)
    (k : Nat) (h : (handle_kakera_reactions ctx card k).1 = true) :
    TraceEvent.feedback true ∈ (handle_kakera_reactions ctx card k).2 := by
  rw [handle_kakera_reactions] at h ⊢
  cases hsel : select_kakera_component card.components ctx.targets with
  | none =>
    simp only [hsel] at h
    simp at h
  | some c =>
    simp only [hsel] at h ⊢
    by_cases hc : ctx.oracle.clickOk k
    · simp only [hc, if_true] at h ⊢
      have hd : ctx.oracle.feedbackDepleted k = true := h
      rw [hd]
      simp
    · simp only [hc, if_false] at h
      simp at h

/-- Helper: a roll whose reply poll does not raise always succeeds, sends
exactly one message and advances the oracle index by one. -/
theorem perform_roll_ok (ctx : RollCtx) (s : ExecState)
    (v : Option DiscordMessage) (hv : ctx.oracle.card s.idx = Except.ok v) :
    ∃ s1 tr, perform_roll ctx s = (Except.ok s1, tr) ∧
      s1.total_messages = s.total_messages + 1 ∧
      s1.idx = s.idx + 1 ∧
      count_sent tr = 1 ∧ count_rolls tr = 1 ∧ boost_args tr = [] := by
  cases v with
  | none =>
    simp only [perform_roll, hv]
    exact ⟨_, _, rfl, rfl, rfl, rfl, rfl, rfl⟩
  | some card =>
    simp only [perform_roll, hv]
    split
    · refine ⟨_, _, rfl, rfl, rfl, ?_, ?_, ?_⟩
      · obtain ⟨h1, _, _⟩ := handle_no_send ctx card s.idx
        rw [count_sent] at h1 ⊢
        rw [List.filter_cons]
        simp only [is_send_event, if_true, List.length_cons]
        omega
      · obtain ⟨_, h2, _⟩ := handle_no_send ctx card s.idx
        rw [count_rolls] at h2 ⊢
        rw [List.filter_cons]
        simp only [is_roll_event, if_true, List.length_cons]
        omega
      · obtain ⟨_, _, h3⟩ := handle_no_send ctx card s.idx
        rw [boost_args] at h3 ⊢
        rw [List.filterMap_cons]
        simp only []
        rw [h3]
    · exact ⟨_, _, rfl, rfl, rfl, rfl, rfl, rfl⟩

/-- Helper: `n` rolls against a transport whose polls never raise all
succeed, send exactly `n` messages (all of them roll commands, no boost
commands) and advance the counters by `n`. -/
theorem run_rolls_ok (ctx : RollCtx) (hok : oracle_ok ctx.oracle) :
    ∀ (n : Nat) (s : ExecState),
      ∃ s1 tr, run_rolls ctx n s = (Except.ok s1, tr) ∧
        s1.total_messages = s.total_messages + n ∧
        s1.idx = s.idx + n ∧
        count_sent tr = n ∧ count_rolls tr = n ∧ boost_args tr = [] := by
  intro n
  induction n with
  | zero => intro s; exact ⟨s, [], rfl, rfl, rfl, rfl, rfl, rfl⟩
  | succ n ih =>
    intro s
    obtain ⟨v, hv⟩ := hok s.idx
    obtain ⟨s1, tr1, hp, hm1, hi1, hc1, hr1, hb1⟩ := perform_roll_ok ctx s v hv
    obtain ⟨s2, tr2, hq, hm2, hi2, hc2, hr2, hb2⟩ := ih s1
    refine ⟨s2, tr1 ++ tr2, ?_, ?_, ?_, ?_, ?_, ?_⟩
    · simp only [run_rolls, hp]
      rw [hq]
    · omega
    · omega
    · rw [count_sent_append, hc1, hc2]
      omega
    · rw [count_rolls_append, hr1, hr2]
      omega
    · rw [boost_args_append, hb1, hb2]
      rfl

/-- Helper: the boost batch sizes number exactly the ceiling of the
remaining count over the batch cap, and they sum to the remaining count. -/
theorem boostBatches_facts : ∀ r : Nat,
    (boostBatches r).length
      = (r + (MAX_US_BATCH_SIZE - 1)) / MAX_US_BATCH_SIZE ∧
    (boostBatches r).sum = r := by
  intro r
  induction r using Nat.strong_induction_on with
  | _ r ih =>
    match r with
    | 0 =>
      refine ⟨?_, by rw [boostBatches]; rfl⟩
      rw [boostBatches, MAX_US_BATCH_SIZE]
      rfl
    | r + 1 =>
      have hb1 : 1 ≤ min MAX_US_BATCH_SIZE (r + 1) := by
        rw [MAX_US_BATCH_SIZE]
        omega
      obtain ⟨ihl, ihs⟩ :=
        ih (r + 1 - min MAX_US_BATCH_SIZE (r + 1)) (by omega)
      constructor
      · rw [boostBatches, List.length_cons, ihl]
        rw [MAX_US_BATCH_SIZE] at hb1 ⊢
        omega
      · rw [boostBatches, List.sum_cons, ihs]
        omega

/-- Helper: the boost phase against a transport whose polls never raise
issues exactly the `boostBatches` commands and performs one roll per
consumed boost. -/
theorem run_boosts_ok (ctx : RollCtx) (hok : oracle_ok ctx.oracle) :
    ∀ (r : Nat) (s : ExecState),
      ∃ s2 tr, run_boosts ctx r s = (Except.ok s2, tr) ∧
        boost_args tr = boostBatches r ∧
        count_rolls tr = r ∧
        count_sent tr = r + (boostBatches r).length := by
  intro r
  induction r using Nat.strong_induction_on with
  | _ r ih =>
    match r with
    | 0 =>
      intro s
      exact ⟨s, [], by rw [run_boosts], by rw [boostBatches]; rfl, rfl,
        by rw [boostBatches]; rfl⟩
    | r + 1 =>
      intro s
      have hb1 : 1 ≤ min MAX_US_BATCH_SIZE (r + 1) := by
        rw [MAX_US_BATCH_SIZE]
        omega
      obtain ⟨s1, tr1, hrr, hm1, hi1, hc1, hr1, hb1'⟩ :=
        run_rolls_ok ctx hok (min MAX_US_BATCH_SIZE (r + 1))
          { s with total_messages := s.total_messages + 1 }
      obtain ⟨s2, tr2, hq, hba, hcr, hcs⟩ :=
        ih (r + 1 - min MAX_US_BATCH_SIZE (r + 1)) (by omega) s1
      refine ⟨s2,
        TraceEvent.boostCmd
            ( ctx.command_prefix ++ "us " ++ toString (min MAX_US_BATCH_SIZE (r + 1)))
            (min MAX_US_BATCH_SIZE (r + 1)) :: (tr1 ++ tr2),
        ?_, ?_, ?_, ?_⟩
      · simp only [run_boosts, hrr]
        rw [hq]
      · rw [boost_args, List.filterMap_cons]
        simp only []
        rw [boostBatches]
        rw [boost_args] at hba hb1'
        rw [List.filterMap_append, hba, hb1']
        rfl
      · rw [count_rolls, List.filter_cons]
        simp only [is_roll_event, if_false, Bool.false_eq_true]
        rw [count_rolls] at hcr hr1
        rw [List.filter_append, List.length_append, hcr, hr1]
        omega
      · rw [count_sent, List.filter_cons]
        simp only [is_send_event, if_true, List.length_cons]
        rw [count_sent] at hcs hc1
        rw [List.filter_append, List.length_append, hcs, hc1]
        rw [boostBatches, List.length_cons]
        omega

/-- C1: for a plan with `us_uses = 0`, in every reaction mode and
invocation mode and whatever cards or click/feedback outcomes the
transport produces (as long as polling raises no error), the executor
sends exactly `roll_count + 1` messages — `roll_count` roll commands plus
one closing message, no boost commands — and returns a summary with
`total_messages_sent = roll_count + 1`. -/
theorem execute_roll_plan_messages (settings : AppSettings)
    (oracle : RollOracle) (plan : RollPlan)
    (hok : oracle_ok oracle) (hus : plan.us_uses = 0) :
    ∃ summary : RollSummary,
      (execute_roll_plan settings oracle plan).1 = Except.ok summary ∧
      summary.total_messages_sent = plan.roll_count + 1 ∧
      count_sent (execute_roll_plan settings oracle plan).2
        = plan.roll_count + 1 ∧
      count_rolls (execute_roll_plan settings oracle plan).2
        = plan.roll_count ∧
      boost_args (execute_roll_plan settings oracle plan).2 = [] := by
  obtain ⟨s1, tr1, h1, hm1, hi1, hc1, hr1, hb1⟩ :=
    run_rolls_ok
      { command_prefix := settings.discord.command_prefix,
        use_slash_commands := plan.use_slash_commands,
        targets := resolve_kakera_targets settings.kakera.preferred_types
          plan.kakera_reaction_mode,
        oracle := oracle }
      hok plan.roll_count init_exec_state
  simp only [execute_roll_plan, hus, h1, run_boosts]
  refine ⟨_, rfl, ?_, ?_, ?_, ?_⟩
  · simp only [init_exec_state] at hm1
    simp only []
    omega
  · rw [count_sent_append, count_sent_append, hc1]
    rfl
  · rw [count_rolls_append, count_rolls_append, hr1]
    rfl
  · rw [boost_args_append, boost_args_append, hb1]
    rfl

/-- A transport oracle that never finds a card, never succeeds a click and
never reports depletion. -/
def quiet_oracle : RollOracle :=
  mkOkOracle (fun _ => none) (fun _ => false) (fun _ => false)

/-- A concrete configuration used by the executor witnesses. -/
def sample_settings : AppSettings :=
  { discord :=
      { token := "t", channel_id := "c", guild_id := "g",
        mudae_user_id := "mudae-bot", command_prefix := "$",
        slash_roll_command := "wa" },
    kakera := { preferred_types := ["kakeraP", "kakeraO"] } }

/-- A concrete roll-only plan. -/
def c1_plan : RollPlan :=
  { us_uses := 0, roll_count := 3, use_slash_commands := false,
    kakera_reaction_mode := KakeraReactionMode.preferred }

/-- Witness for C1: three rolls and no boosts against a transport that
never replies. -/
theorem execute_roll_plan_messages_witness :
    ∃ summary : RollSummary,
      (execute_roll_plan sample_settings quiet_oracle c1_plan).1
        = Except.ok summary ∧
      summary.total_messages_sent = c1_plan.roll_count + 1 ∧
      count_sent (execute_roll_plan sample_settings quiet_oracle c1_plan).2
        = c1_plan.roll_count + 1 ∧
      count_rolls (execute_roll_plan sample_settings quiet_oracle c1_plan).2
        = c1_plan.roll_count ∧
      boost_args (execute_roll_plan sample_settings quiet_oracle c1_plan).2
        = [] :=
  execute_roll_plan_messages sample_settings quiet_oracle c1_plan
    (fun _ => ⟨none, rfl⟩) rfl

/-- C2: for a plan with `us_uses = B > 0` and the per-batch cap
`MAX_US_BATCH_SIZE`, the boost phase issues exactly `⌈B / cap⌉` boost
commands (computed as `(B + cap - 1) / cap`), the issued batch sizes are
exactly the `min(cap, remaining)` sequence `boostBatches B`, those batch
sizes sum to `B`, and the roll commands across the whole session number
`roll_count + B` — that is, the per-batch roll iterations across all
batches sum to exactly `B`. -/
theorem execute_roll_plan_boost_phase (settings : AppSettings)
    (oracle : RollOracle) (plan : RollPlan)
    (hok : oracle_ok oracle) (hB : 0 < plan.us_uses) :
    boost_args (execute_roll_plan settings oracle plan).2
      = boostBatches plan.us_uses ∧
    (boost_args (execute_roll_plan settings oracle plan).2).length
      = (plan.us_uses + (MAX_US_BATCH_SIZE - 1)) / MAX_US_BATCH_SIZE ∧
    (boostBatches plan.us_uses).sum = plan.us_uses ∧
    count_rolls (execute_roll_plan settings oracle plan).2
      = plan.roll_count + plan.us_uses := by
  obtain ⟨s1, tr1, h1, hm1, hi1, hc1, hr1, hb1⟩ :=
    run_rolls_ok
      { command_prefix := settings.discord.command_prefix,
        use_slash_commands := plan.use_slash_commands,
        targets := resolve_kakera_targets settings.kakera.preferred_types
          plan.kakera_reaction_mode,
        oracle := oracle }
      hok plan.roll_count init_exec_state
  obtain ⟨s2, tr2, h2, hba, hcr, hcs⟩ :=
    run_boosts_ok
      { command_prefix := settings.discord.command_prefix,
        use_slash_commands := plan.use_slash_commands,
        targets := resolve_kakera_targets settings.kakera.preferred_types
          plan.kakera_reaction_mode,
        oracle := oracle }
      hok plan.us_uses s1
  simp only [execute_roll_plan, h1, h2]
  have hargs : boost_args ((tr1 ++ tr2) ++ [TraceEvent.closingCmd closing_text])
      = boostBatches plan.us_uses := by
    rw [boost_args_append, boost_args_append, hb1, hba]
    simp [boost_args]
  refine ⟨hargs, ?_, (boostBatches_facts plan.us_uses).2, ?_⟩
  · rw [hargs, (boostBatches_facts plan.us_uses).1]
  · rw [count_rolls_append, count_rolls_append, hr1, hcr]
    have : count_rolls [TraceEvent.closingCmd closing_text] = 0 := rfl
    omega

/-- A concrete plan with one plain roll and 25 boosts (two batches: 20 and
5). -/
def c2_plan : RollPlan :=
  { us_uses := 25, roll_count := 1, use_slash_commands := false,
    kakera_reaction_mode := KakeraReactionMode.preferred }

/-- Witness for C2: 25 boosts split into batches against a transport that
never replies. -/
theorem execute_roll_plan_boost_phase_witness :
    boost_args (execute_roll_plan sample_settings quiet_oracle c2_plan).2
      = boostBatches c2_plan.us_uses ∧
    (boost_args (execute_roll_plan sample_settings quiet_oracle c2_plan).2).length
      = (c2_plan.us_uses + (MAX_US_BATCH_SIZE - 1)) / MAX_US_BATCH_SIZE ∧
    (boostBatches c2_plan.us_uses).sum = c2_plan.us_uses ∧
    count_rolls (execute_roll_plan sample_settings quiet_oracle c2_plan).2
      = c2_plan.roll_count + c2_plan.us_uses :=
  execute_roll_plan_boost_phase sample_settings quiet_oracle c2_plan
    (fun _ => ⟨none, rfl⟩) (by decide)

/-- A transport oracle whose reply polls always raise. -/
def err_oracle : RollOracle :=
  { card := fun _ => Except.error "boom",
    clickOk := fun _ => false, feedbackDepleted := fun _ => false }

/-- A concrete two-roll plan for the transport-error scenario. -/
def c6_plan : RollPlan :=
  { us_uses := 0, roll_count := 2, use_slash_commands := false,
    kakera_reaction_mode := KakeraReactionMode.preferred }

/-- C6 counterexample: when the transport raises during the reply poll of
the first roll of a two-roll plan, the session does NOT continue with the
second roll — the executor propagates the error with no summary after
having sent only the one roll command (no second roll, no closing
message). -/
theorem poll_error_aborts_session_cex :
    (execute_roll_plan sample_settings err_oracle c6_plan).1
      = Except.error "boom" ∧
    count_sent (execute_roll_plan sample_settings err_oracle c6_plan).2 = 1 ∧
    count_rolls (execute_roll_plan sample_settings err_oracle c6_plan).2 = 1 :=
  ⟨rfl, rfl, rfl⟩

/-- C6 (amended): a transport error during reply polling is fatal to the
whole session, not only to the current roll action: `execute_roll_plan`
has no handler around the poll, so the error propagates to the caller, no
summary is produced, no further roll is issued and no closing message is
sent — the trace ends at the roll command whose poll raised.  (Only
button-click errors are swallowed; error handling happens in the
launcher.) -/
theorem poll_error_fatal_to_session (settings : AppSettings)
    (oracle : RollOracle) (plan : RollPlan) (e : String)
    (h1 : oracle.card 0 = Except.error e) (h2 : 0 < plan.roll_count) :
    (execute_roll_plan settings oracle plan).1 = Except.error e ∧
    (execute_roll_plan settings oracle plan).2
      = [TraceEvent.rollCmd plan.use_slash_commands (roll_text_of settings)] := by
  obtain ⟨n, hn⟩ : ∃ n, plan.roll_count = n + 1 :=
    ⟨plan.roll_count - 1, by omega⟩
  have hperf :
      perform_roll
        { command_prefix := settings.discord.command_prefix,
          use_slash_commands := plan.use_slash_commands,
          targets := resolve_kakera_targets settings.kakera.preferred_types
            plan.kakera_reaction_mode,
          oracle := oracle }
        init_exec_state
      = (Except.error e,
         [TraceEvent.rollCmd plan.use_slash_commands (roll_text_of settings)]) := by
    simp only [perform_roll, roll_text_of, init_exec_state]
    simp only [h1]
  constructor
  · simp only [execute_roll_plan, hn, run_rolls, hperf]
  · simp only [execute_roll_plan, hn, run_rolls, hperf]

/-- Witness for C6 (amended): the concrete erroring transport aborts the
concrete two-roll plan at its first roll. -/
theorem poll_error_fatal_to_session_witness :
    (execute_roll_plan sample_settings err_oracle c6_plan).1
      = Except.error "boom" ∧
    (execute_roll_plan sample_settings err_oracle c6_plan).2
      = [TraceEvent.rollCmd c6_plan.use_slash_commands
          (roll_text_of sample_settings)] :=
  poll_error_fatal_to_session sample_settings err_oracle c6_plan "boom"
    rfl (by decide)

/-- Helper: a roll starting with the energy flag set keeps it set and runs
no reaction sub-flow. -/
theorem perform_roll_flagged (ctx : RollCtx) (s s1 : ExecState)
    (tr : List TraceEvent)
    (hflag : s.kakera_energy_depleted = true)
    (h : perform_roll ctx s = (Except.ok s1, tr)) :
    s1.kakera_energy_depleted = true ∧ reaction_free tr = true := by
  cases hv : ctx.oracle.card s.idx with
  | error e =>
    simp only [perform_roll, hv] at h
    simp at h
  | ok v =>
    cases v with
    | none =>
      simp only [perform_roll, hv] at h
      rw [Prod.mk.injEq] at h
      obtain ⟨ha, hb⟩ := h
      rw [Except.ok.injEq] at ha
      subst hb
      rw [← ha]
      exact ⟨hflag, rfl⟩
    | some card =>
      simp only [perform_roll, hv, hflag, Bool.not_true, Bool.and_false,
        Bool.false_eq_true, if_false] at h
      rw [Prod.mk.injEq] at h
      obtain ⟨ha, hb⟩ := h
      rw [Except.ok.injEq] at ha
      subst hb
      rw [← ha]
      exact ⟨rfl, rfl⟩

/-- Helper: a roll sequence starting with the energy flag set keeps it set
and runs no reaction sub-flow. -/
theorem run_rolls_flagged (ctx : RollCtx) :
    ∀ (n : Nat) (s s1 : ExecState) (tr : List TraceEvent),
      s.kakera_energy_depleted = true →
      run_rolls ctx n s = (Except.ok s1, tr) →
      s1.kakera_energy_depleted = true ∧ reaction_free tr = true := by
  intro n
  induction n with
  | zero =>
    intro s s1 tr hflag h
    rw [run_rolls] at h
    rw [Prod.mk.injEq] at h
    obtain ⟨ha, hb⟩ := h
    rw [Except.ok.injEq] at ha
    subst hb
    rw [← ha]
    exact ⟨hflag, rfl⟩
  | succ n ih =>
    intro s s1 tr hflag h
    rw [run_rolls] at h
    cases hp : perform_roll ctx s with
    | mk res tr1 =>
      cases res with
      | error e =>
        simp only [hp] at h
        simp at h
      | ok sMid =>
        simp only [hp] at h
        obtain ⟨hf, hr⟩ := perform_roll_flagged ctx s sMid tr1 hflag hp
        cases hq : run_rolls ctx n sMid with
        | mk res2 tr2 =>
          cases res2 with
          | error e =>
            simp only [hq] at h
            simp at h
          | ok sEnd =>
            simp only [hq] at h
            rw [Prod.mk.injEq] at h
            obtain ⟨ha, hb⟩ := h
            rw [Except.ok.injEq] at ha
            obtain ⟨hf2, hr2⟩ := ih sMid sEnd tr2 hf hq
            subst hb
            rw [← ha]
            refine ⟨hf2, ?_⟩
            rw [reaction_free_append, hr, hr2]
            rfl

/-- Helper: a boost phase starting with the energy flag set keeps it set
and runs no reaction sub-flow. -/
theorem run_boosts_flagged (ctx : RollCtx) :
    ∀ (r : Nat) (s s1 : ExecState) (tr : List TraceEvent),
      s.kakera_energy_depleted = true →
      run_boosts ctx r s = (Except.ok s1, tr) →
      s1.kakera_energy_depleted = true ∧ reaction_free tr = true := by
  intro r
  induction r using Nat.strong_induction_on with
  | _ r ih =>
    match r with
    | 0 =>
      intro s s1 tr hflag h
      rw [run_boosts] at h
      rw [Prod.mk.injEq] at h
      obtain ⟨ha, hb⟩ := h
      rw [Except.ok.injEq] at ha
      subst hb
      rw [← ha]
      exact ⟨hflag, rfl⟩
    | r + 1 =>
      intro s s1 tr hflag h
      simp only [run_boosts] at h
      cases hp : run_rolls ctx (min MAX_US_BATCH_SIZE (r + 1))
          { s with total_messages := s.total_messages + 1 } with
      | mk res tr1 =>
        cases res with
        | error e =>
          simp only [hp] at h
          simp at h
        | ok sMid =>
          simp only [hp] at h
          have hfl1 : ({ s with total_messages := s.total_messages + 1 }
              : ExecState).kakera_energy_depleted = true := hflag
          obtain ⟨hf, hr⟩ :=
            run_rolls_flagged ctx (min MAX_US_BATCH_SIZE (r + 1)) _ sMid tr1
              hfl1 hp
          cases hq : run_boosts ctx (r + 1 - min MAX_US_BATCH_SIZE (r + 1))
              sMid with
          | mk res2 tr2 =>
            cases res2 with
            | error e =>
              simp only [hq] at h
              simp at h
            | ok sEnd =>
              simp only [hq] at h
              rw [Prod.mk.injEq] at h
              obtain ⟨ha, hb⟩ := h
              rw [Except.ok.injEq] at ha
              have hlt : r + 1 - min MAX_US_BATCH_SIZE (r + 1) < r + 1 := by
                rw [MAX_US_BATCH_SIZE]
                omega
              obtain ⟨hf2, hr2⟩ := ih _ hlt sMid sEnd tr2 hf hq
              subst hb
              rw [← ha]
              refine ⟨hf2, ?_⟩
              rw [reaction_free, List.all_cons]
              simp only []
              rw [Bool.true_and]
              rw [← reaction_free]
              rw [reaction_free_append, hr, hr2]
              rfl

/-- Helper: a roll that turns the energy flag from clear to set records a
depleted feedback classification in its trace — the flag is only ever set
by a reaction sub-flow outcome. -/
theorem perform_roll_sets_flag_by_feedback (ctx : RollCtx)
    (s s1 : ExecState) (tr : List TraceEvent)
    (h : perform_roll ctx s = (Except.ok s1, tr))
    (h0 : s.kakera_energy_depleted = false)
    (h1 : s1.kakera_energy_depleted = true) :
    TraceEvent.feedback true ∈ tr := by
  cases hv : ctx.oracle.card s.idx with
  | error e =>
    simp only [perform_roll, hv] at h
    simp at h
  | ok v =>
    cases v with
    | none =>
      simp only [perform_roll, hv] at h
      rw [Prod.mk.injEq] at h
      obtain ⟨ha, hb⟩ := h
      rw [Except.ok.injEq] at ha
      rw [← ha] at h1
      have h1' : s.kakera_energy_depleted = true := h1
      rw [h0] at h1'
      exact absurd h1' (by simp)
    | some card =>
      simp only [perform_roll, hv] at h
      split at h
      · rw [Prod.mk.injEq] at h
        obtain ⟨ha, hb⟩ := h
        rw [Except.ok.injEq] at ha
        rw [← ha] at h1
        have hd : (handle_kakera_reactions ctx card s.idx).1 = true := h1
        have hmem := handle_depleted_feedback ctx card s.idx hd
        rw [← hb]
        exact List.mem_cons_of_mem _ hmem
      · rw [Prod.mk.injEq] at h
        obtain ⟨ha, hb⟩ := h
        rw [Except.ok.injEq] at ha
        rw [← ha] at h1
        have h1' : s.kakera_energy_depleted = true := h1
        rw [h0] at h1'
        exact absurd h1' (by simp)

/-- C10: the energy-depleted flag is monotone within one session: it
starts clear, a roll that begins with it set keeps it set and performs no
button selection, click or feedback classification (and the same holds for
every remaining roll of the plain and boost phases), and the flag is only
ever set by a reaction sub-flow whose feedback classification reported
depletion. -/
theorem energy_flag_monotone_sessionwide (ctx : RollCtx) :
    init_exec_state.kakera_energy_depleted = false ∧
    (∀ (s s1 : ExecState) (tr : List TraceEvent),
      s.kakera_energy_depleted = true →
      perform_roll ctx s = (Except.ok s1, tr) →
      s1.kakera_energy_depleted = true ∧ reaction_free tr = true) ∧
    (∀ (n : Nat) (s s1 : ExecState) (tr : List TraceEvent),
      s.kakera_energy_depleted = true →
      run_rolls ctx n s = (Except.ok s1, tr) →
      s1.kakera_energy_depleted = true ∧ reaction_free tr = true) ∧
    (∀ (r : Nat) (s s1 : ExecState) (tr : List TraceEvent),
      s.kakera_energy_depleted = true →
      run_boosts ctx r s = (Except.ok s1, tr) →
      s1.kakera_energy_depleted = true ∧ reaction_free tr = true) ∧
    (∀ (s s1 : ExecState) (tr : List TraceEvent),
      perform_roll ctx s = (Except.ok s1, tr) →
      s.kakera_energy_depleted = false →
      s1.kakera_energy_depleted = true →
      TraceEvent.feedback true ∈ tr) :=
  ⟨rfl,
   fun s s1 tr hf h => perform_roll_flagged ctx s s1 tr hf h,
   fun n s s1 tr hf h => run_rolls_flagged ctx n s s1 tr hf h,
   fun r s s1 tr hf h => run_boosts_flagged ctx r s s1 tr hf h,
   fun s s1 tr h h0 h1 =>
     perform_roll_sets_flag_by_feedback ctx s s1 tr h h0 h1⟩

/-- A roll context with slash commands, non-empty targets and a transport
that never replies. -/
def sample_ctx : RollCtx :=
  { command_prefix := "$", use_slash_commands := true,
    targets := ["kakeraP"], oracle := quiet_oracle }

/-- An executor state whose energy flag is already set. -/
def flagged_state : ExecState :=
  { total_messages := 5, cards_detected := 2, last_card_title := none,
    kakera_energy_depleted := true, idx := 3 }

/-- The state after one more roll from `flagged_state`. -/
def flagged_state_after : ExecState :=
  { total_messages := 6, cards_detected := 2, last_card_title := none,
    kakera_energy_depleted := true, idx := 4 }

/-- Witness for C10: one concrete roll from a flagged state keeps the flag
and performs no reaction activity. -/
theorem energy_flag_monotone_sessionwide_witness :
    flagged_state_after.kakera_energy_depleted = true ∧
    reaction_free [TraceEvent.rollCmd true ("$" ++ "wa")] = true :=
  (energy_flag_monotone_sessionwide sample_ctx).2.1 flagged_state
    flagged_state_after [TraceEvent.rollCmd true ("$" ++ "wa")] rfl rfl
